import Mathlib

/-!
# Proton `steam_helper/steam.cpp`: command line rewriting and the CEG handshake

A shallow embedding of `find_quote`, `steam_ceg_interface` and `run_process`.

Conventions of the embedding.

* A wide C string (`WCHAR *`) is the list of its characters before the terminating NUL.
  A pointer into such a string is the suffix it points at, or an index from its start.
* The shared mailbox is the list of its bytes; `char` strings read from it or handed to the
  operating system are lists of bytes before the terminating NUL.
* Calls into the operating system are taken from an environment `Env` that fixes what each
  call answers; the calls `run_process` makes are written to a trace of `Call`s, in order.
* `strcpy` has no bound.  Where the C call leaves the memory it was given, the model stops with
  a `Fault` that says how, instead of inventing a result.
-/

namespace Steam

/-! ## Strings -/

/-- The C function `wcschr(str, c)`: the index of the first `c` in `str`; searching for NUL
finds the terminator. -/
def wcschr : List Char → Char → Option Nat
  | [], c => if c = '\x00' then some 0 else none
  | x :: xs, c => if x = c then some 0 else (wcschr xs c).map (· + 1)

/-- The inner loop of `find_quote` (lines 129-133): `ch` walks back from `str + n - 1` while it
is inside `str` and points at a backslash, and `odd` is flipped at every step.  The first
argument is `ch - str + 1`, so that `0` is `ch < str`. -/
def find_quote_back (str : List Char) : Nat → Bool → Bool
  | 0, odd => odd
  | n + 1, odd => if str[n]? = some '\\' then find_quote_back str n (!odd) else odd

/-- The outer loop of `find_quote` (lines 125-137), `end` given as an index into `str`, with
fuel for the iterations. -/
def find_quote_loop (str : List Char) : Nat → Option Nat → Option Nat
  | 0, _ => none
  | _ + 1, none => none
  | fuel + 1, some e =>
    if find_quote_back str e false = false then some e
    else find_quote_loop str fuel ((wcschr (str.drop (e + 1)) '"').map (· + (e + 1)))

/-- The function `find_quote(str)` (lines 121-139); the result is an index into `str`. -/
def find_quote (str : List Char) : Option Nat :=
  find_quote_loop str (str.length + 1) (wcschr str '"')

/-- The number of consecutive backslashes that end `pre`. -/
def trailing_backslashes (pre : List Char) : Nat :=
  (pre.reverse.takeWhile (· = '\\')).length

/-- Position `i` of `s` holds a quote that is preceded, within `s`, by an even number of
consecutive backslashes. -/
def unescaped_quote_at (s : List Char) (i : Nat) : Prop :=
  s[i]? = some '"' ∧ trailing_backslashes (s.take i) % 2 = 0

instance (s : List Char) (i : Nat) : Decidable (unescaped_quote_at s i) := by
  unfold unescaped_quote_at; infer_instance

/-- The position `r` is the first unescaped quote of `s`; `none` says there is none. -/
def first_unescaped_quote (s : List Char) : Option Nat → Prop
  | some i => unescaped_quote_at s i ∧ ∀ j, j < i → ¬ unescaped_quote_at s j
  | none => ∀ i, ¬ unescaped_quote_at s i

/-! ## The mailbox decoder -/

/-- The way in which an unbounded `strcpy` out of the mailbox leaves the memory it was given:
the source has no NUL before the end of the mailbox, or the string with its terminator is
longer than the destination field (`written` bytes go to it). -/
inductive Fault
  | read_past_mailbox
  | write_past_field (written : Nat)
deriving DecidableEq

/-- The struct `steam_app_ceg_info` (lines 148-154); a text field holds the bytes before its
terminator. -/
structure steam_app_ceg_info where
  pid : Nat
  active_process : Nat
  startup_module : List Nat
  start_event : List Nat
  term_event : List Nat
deriving DecidableEq

/-- The NUL-terminated string that starts the byte list: the bytes before the first NUL, or
`none` when the list ends before a NUL is met. -/
def c_string : List Nat → Option (List Nat)
  | [] => none
  | b :: bs => if b = 0 then some [] else (c_string bs).map (b :: ·)

/-- The call `strcpy(dst, ipc_data)` with `dst` a field of `dst_size` bytes and `ipc_data` at
the given offset of the mailbox: the bytes stored before the terminator. -/
def strcpy (dst_size : Nat) (mailbox : List Nat) (ipc_data : Nat) : Except Fault (List Nat) :=
  match c_string (mailbox.drop ipc_data) with
  | none => .error .read_past_mailbox
  | some s =>
    if s.length + 1 ≤ dst_size then .ok s else .error (.write_past_field (s.length + 1))

/-- The decoding part of `steam_ceg_interface` (lines 203-227).  `file_mapping` is the address
the mailbox is mapped at and `ipc_data` the offset of the cursor from it.  The two integer
fields are read through `&ipc_data`, the address of the cursor variable, so each receives the
low 32 bits of the cursor itself (little-endian target); the cursor then moves by `strlen` of
the field just copied. -/
def steam_ceg_interface_decode (file_mapping : Nat) (mailbox : List Nat) :
    Except Fault steam_app_ceg_info := do
  let ipc_data := 0
  let pid := (file_mapping + ipc_data) % 2 ^ 32
  let ipc_data := ipc_data + 4
  let active_process := (file_mapping + ipc_data) % 2 ^ 32
  let ipc_data := ipc_data + 4
  let startup_module ← strcpy 256 mailbox ipc_data
  let ipc_data := ipc_data + startup_module.length
  let start_event ← strcpy 256 mailbox ipc_data
  let ipc_data := ipc_data + start_event.length
  let term_event ← strcpy 256 mailbox ipc_data
  return { pid := pid, active_process := active_process, startup_module := startup_module,
           start_event := start_event, term_event := term_event }

/-! ## The environment and the trace -/

/-- The calls of `run_process` and `steam_ceg_interface` that act on the channel, on the
launched process, on files and on events.  `ReleaseSemaphore i n` releases
`produce_handle[i]` by `n`. -/
inductive Call
  | setup_ceg_handles
  | CreateProcessW (cmdline : List Char) (flags : Nat)
  | DeleteFileA (name : List Nat)
  | OpenEventA (name : List Nat)
  | SetEvent
  | CloseHandle_start_handle
  | ReleaseSemaphore (produce_index : Nat) (count : Nat)
  | cleanup_ceg_handles
  | CloseHandle_hThread
deriving DecidableEq

/-- What `run_process` returns. -/
inductive HANDLE
  | INVALID_HANDLE_VALUE
  | hProcess
deriving DecidableEq

/-- The answers of the operating system.  `WideCharToMultiByte_size` is the call with a NULL
buffer (the size needed, 0 on failure); `WideCharToMultiByte` the call that converts (its
return value, 0 on failure, and the bytes stored); `wine_get_dos_file_name` answers `none` for
NULL; `SHGetFileInfoW` is asked for the executable type of `dos`; `WaitForSingleObject` is the
result of the wait on the consume semaphore; `DeleteFileA` and `OpenEventA` say whether the
call succeeds. -/
structure Env where
  WideCharToMultiByte_size : List Char → Nat
  WideCharToMultiByte : List Char → Nat → Nat × List Nat
  wine_get_dos_file_name : List Nat → Option (List Char)
  SHGetFileInfoW : Option (List Char) → Nat
  CreateProcessW : List Char → Nat → Bool
  WaitForSingleObject : Nat
  file_mapping : Nat
  mailbox : List Nat
  DeleteFileA : List Nat → Bool
  OpenEventA : List Nat → Bool

/-- The Windows constant `WAIT_OBJECT_0`. -/
def WAIT_OBJECT_0 : Nat := 0

/-- The Windows constant `CREATE_NEW_CONSOLE`. -/
def CREATE_NEW_CONSOLE : Nat := 0x10

/-- The Windows macro `HIWORD`: bits 16 to 31. -/
def HIWORD (x : Nat) : Nat := (x / 65536) % 65536

/-- The Windows function `lstrcatW(dst, src)`: `dst` with `src` appended.  The function guards
the copy against access violations: with a NULL `src` it fails and `dst` stays as it was. -/
def lstrcatW (dst : List Char) (src : Option (List Char)) : List Char :=
  match src with
  | some s => dst ++ s
  | none => dst

/-! ## The handshake -/

/-- The function `steam_ceg_interface` (lines 188-251): the calls it makes, and whether it
returns or the decoder faults. -/
def steam_ceg_interface (env : Env) : List Call × Except Fault Unit :=
  if env.WaitForSingleObject ≠ WAIT_OBJECT_0 then ([], .ok ())
  else
    match steam_ceg_interface_decode env.file_mapping env.mailbox with
    | .error f => ([], .error f)
    | .ok info =>
      let deleted := [Call.DeleteFileA info.startup_module]
      let started :=
        if info.start_event ≠ [] then
          if env.OpenEventA info.start_event then
            [Call.OpenEventA info.start_event, Call.SetEvent, Call.CloseHandle_start_handle]
          else [Call.OpenEventA info.start_event]
        else []
      (deleted ++ started ++ [Call.ReleaseSemaphore 0 1, Call.ReleaseSemaphore 1 1], .ok ())

/-! ## The command line -/

/-- The first part of `run_process` (lines 261-276): skip `argv[0]` and the spaces after it.
`none` is the `Invalid command` return. -/
def run_process_skip_argv0 (cmdline : List Char) : Option (List Char) :=
  let cmdline : Option (List Char) :=
    if cmdline[0]? = some '"' then
      (find_quote (cmdline.drop 1)).map (fun e => (cmdline.drop 1).drop (e + 1))
    else
      (wcschr cmdline ' ').map (fun e => cmdline.drop e)
  cmdline.map (List.dropWhile (· = ' '))

/-- The second part of `run_process` (lines 278-354): the command line and the creation flags
at the label `run`.  Every `goto run` leaves with the command line it came with and flags 0.
`token` is the pair of `scratchW` (the characters from `start` to `end`) and `remainder`; the
new command line is built by `lstrcpyW` of a quote and three `lstrcatW`. -/
def run_process_convert (env : Env) (cmdline : List Char) : List Char × Nat :=
  if cmdline[0]? = some '/' ∨ (cmdline[0]? = some '"' ∧ cmdline[1]? = some '/') then
    let token : Option (List Char × List Char) :=
      if cmdline[0]? = some '"' then
        let start := cmdline.drop 1
        match find_quote start with
        | none => none
        | some e => some (start.take e, start.drop (e + 1))
      else
        let start := cmdline
        let e := match wcschr start ' ' with
          | some e => e
          | none => start.length -- wcschr(start, 0): the terminator of `start`
        some (start.take e, start.drop e)
    match token with
    | none => (cmdline, 0)
    | some (scratchW, remainder) =>
      let r := env.WideCharToMultiByte_size scratchW
      if r = 0 then (cmdline, 0)
      else
        let converted := env.WideCharToMultiByte scratchW r
        if converted.1 = 0 then (cmdline, 0)
        else
          let dos := env.wine_get_dos_file_name converted.2
          let console := env.SHGetFileInfoW dos
          let flags := if console ≠ 0 ∧ HIWORD console = 0 then 0 ||| CREATE_NEW_CONSOLE else 0
          let new_cmdline :=
            lstrcatW (lstrcatW (lstrcatW ['"'] dos) (some ['"'])) (some remainder)
          (new_cmdline, flags)
  else (cmdline, 0)

/-- The function `run_process` (lines 253-373) on the raw command line: the trace of its calls
and what it returns, or the fault of the decoder it ran into. -/
def run_process (env : Env) (GetCommandLineW : List Char) : List Call × Except Fault HANDLE :=
  match run_process_skip_argv0 GetCommandLineW with
  | none => ([], .ok .INVALID_HANDLE_VALUE)
  | some cmdline =>
    let converted := run_process_convert env cmdline
    let launched := [Call.setup_ceg_handles, Call.CreateProcessW converted.1 converted.2]
    if env.CreateProcessW converted.1 converted.2 = false then
      (launched, .ok .INVALID_HANDLE_VALUE)
    else
      match steam_ceg_interface env with
      | (handshake, .error f) => (launched ++ handshake, .error f)
      | (handshake, .ok ()) =>
        (launched ++ handshake ++ [Call.cleanup_ceg_handles, Call.CloseHandle_hThread],
          .ok .hProcess)

/-! ## Vocabulary of the properties -/

/-- The command lines and creation flags handed to `CreateProcessW`, in order. -/
def process_creations : List Call → List (List Char × Nat)
  | [] => []
  | Call.CreateProcessW c f :: t => (c, f) :: process_creations t
  | _ :: t => process_creations t

/-- Both conversions of the token `p` succeed and the path resolution answers `d`. -/
def translation_succeeds (env : Env) (p d : List Char) : Prop :=
  env.WideCharToMultiByte_size p ≠ 0 ∧
  (env.WideCharToMultiByte p (env.WideCharToMultiByte_size p)).1 ≠ 0 ∧
  env.wine_get_dos_file_name
    (env.WideCharToMultiByte p (env.WideCharToMultiByte_size p)).2 = some d

/-- The creation flags for the resolved path `d`: a new console when the executable type is
non-zero with a zero high word. -/
def console_flags (env : Env) (d : List Char) : Nat :=
  if env.SHGetFileInfoW (some d) ≠ 0 ∧ HIWORD (env.SHGetFileInfoW (some d)) = 0 then
    CREATE_NEW_CONSOLE
  else 0

/-- No terminator of `argv[0]`: the line starts with a quote and nothing after it is an
unescaped quote, or it does not start with a quote and holds no space. -/
def no_argv0_terminator (raw : List Char) : Prop :=
  (['"'] <+: raw ∧ ∀ i, ¬ unescaped_quote_at (raw.drop 1) i) ∨
  (¬ ['"'] <+: raw ∧ ' ' ∉ raw)

/-- The invalid-command outcome: `INVALID_HANDLE_VALUE` is returned, the channel was not set
up and no process creation was attempted. -/
def invalid_command (r : List Call × Except Fault HANDLE) : Prop :=
  r.2 = .ok .INVALID_HANDLE_VALUE ∧ Call.setup_ceg_handles ∉ r.1 ∧ process_creations r.1 = []

/-- The calls of a handshake that was signaled and decoded `info`. -/
def handshake_effects (env : Env) (info : steam_app_ceg_info) : List Call :=
  Call.DeleteFileA info.startup_module ::
    ((if info.start_event = [] then []
      else Call.OpenEventA info.start_event ::
        (if env.OpenEventA info.start_event then [Call.SetEvent, Call.CloseHandle_start_handle]
         else [])) ++
     [Call.ReleaseSemaphore 0 1, Call.ReleaseSemaphore 1 1])

/-- The little-endian 32-bit value stored in `mem` at offset `off`. -/
def le32 (mem : List Nat) (off : Nat) : Nat :=
  mem.getD off 0 + 256 * mem.getD (off + 1) 0 + 65536 * mem.getD (off + 2) 0 +
    16777216 * mem.getD (off + 3) 0

/-! ## Concrete inputs -/

/-- The bytes of an ASCII string. -/
def bytes (s : String) : List Nat := s.toList.map Char.toNat

/-- A 4096-byte mailbox that starts with `content`; the rest of a fresh mapping is zero. -/
def mailbox_of (content : List Nat) : List Nat :=
  content ++ List.replicate (4096 - content.length) 0

/-- The mailbox of the handshake scenario: pid 4242, active 1, the staging path, an empty start
event name, the term event name. -/
def scenario_mailbox : List Nat :=
  mailbox_of ([146, 16, 0, 0, 1, 0, 0, 0] ++ bytes "C:\\tmp\\stage123.tmp" ++ [0] ++ [0] ++
    bytes "GameTermEvt" ++ [0])

/-- A mailbox with three non-empty strings from offset 8 on. -/
def three_strings_mailbox : List Nat :=
  mailbox_of ([146, 16, 0, 0, 1, 0, 0, 0] ++ bytes "C:\\tmp\\stage123.tmp" ++ [0] ++
    bytes "GameStartEvt" ++ [0] ++ bytes "GameTermEvt" ++ [0])

/-- A mailbox whose first text field is 300 bytes long. -/
def oversize_mailbox : List Nat :=
  mailbox_of (List.replicate 8 0 ++ List.replicate 300 65)

/-- A mailbox without any NUL byte. -/
def unterminated_mailbox : List Nat := List.replicate 4096 65

/-- An environment in which the conversions and the resolution succeed, the resolved binary is
a console executable, the process is created and the child never signals. -/
def env_timeout : Env where
  WideCharToMultiByte_size := fun w => w.length + 1
  WideCharToMultiByte := fun w r => (r, w.map Char.toNat)
  wine_get_dos_file_name := fun a =>
    some ('Z' :: ':' :: a.map (fun b => if b = 47 then '\\' else Char.ofNat b))
  SHGetFileInfoW := fun _ => 0x4550
  CreateProcessW := fun _ _ => true
  WaitForSingleObject := 258
  file_mapping := 0x10000
  mailbox := mailbox_of []
  DeleteFileA := fun _ => true
  OpenEventA := fun _ => true

/-- As `env_timeout`, but process creation fails. -/
def env_spawn_fails : Env where
  WideCharToMultiByte_size := env_timeout.WideCharToMultiByte_size
  WideCharToMultiByte := env_timeout.WideCharToMultiByte
  wine_get_dos_file_name := env_timeout.wine_get_dos_file_name
  SHGetFileInfoW := env_timeout.SHGetFileInfoW
  CreateProcessW := fun _ _ => false
  WaitForSingleObject := 258
  file_mapping := 0x10000
  mailbox := mailbox_of []
  DeleteFileA := fun _ => true
  OpenEventA := fun _ => true

/-- As `env_timeout`, but the path resolution answers NULL. -/
def env_no_dos_name : Env where
  WideCharToMultiByte_size := env_timeout.WideCharToMultiByte_size
  WideCharToMultiByte := env_timeout.WideCharToMultiByte
  wine_get_dos_file_name := fun _ => none
  SHGetFileInfoW := fun _ => 0
  CreateProcessW := fun _ _ => true
  WaitForSingleObject := 258
  file_mapping := 0x10000
  mailbox := mailbox_of []
  DeleteFileA := fun _ => true
  OpenEventA := fun _ => true

/-- The child signals and wrote `mailbox`; deleting the file and opening the event fail. -/
def env_signaled (mailbox : List Nat) : Env where
  WideCharToMultiByte_size := env_timeout.WideCharToMultiByte_size
  WideCharToMultiByte := env_timeout.WideCharToMultiByte
  wine_get_dos_file_name := env_timeout.wine_get_dos_file_name
  SHGetFileInfoW := env_timeout.SHGetFileInfoW
  CreateProcessW := fun _ _ => true
  WaitForSingleObject := WAIT_OBJECT_0
  file_mapping := 0x10000
  mailbox := mailbox
  DeleteFileA := fun _ => false
  OpenEventA := fun _ => false

/-- The command line of the translation scenario. -/
def scenario_cmdline : List Char :=
  "\"C:\\stub.exe\" \"/home/user/game/bin/launch\" --fullscreen".toList

/-! ## `find_quote` -/

theorem trailing_backslashes_succ (s : List Char) (n : Nat) (h : n < s.length) :
    trailing_backslashes (s.take (n + 1)) =
      if s[n]? = some '\\' then trailing_backslashes (s.take n) + 1 else 0 := by
  unfold trailing_backslashes
  rw [List.take_succ, List.getElem?_eq_getElem h]
  simp only [Option.toList, List.reverse_append, List.reverse_cons, List.reverse_nil,
    List.nil_append, List.singleton_append, List.takeWhile_cons, Option.some.injEq]
  by_cases hc : s[n] = '\\' <;> simp [hc]

theorem find_quote_back_eq (s : List Char) :
    ∀ (n : Nat) (odd : Bool), n ≤ s.length →
      (find_quote_back s n odd = false ↔
        (trailing_backslashes (s.take n) + (if odd then 1 else 0)) % 2 = 0)
  | 0, odd, _ => by
    cases odd <;> simp [find_quote_back, trailing_backslashes]
  | n + 1, odd, h => by
    have ih := find_quote_back_eq s n (!odd) (by omega)
    rw [trailing_backslashes_succ s n (by omega)]
    unfold find_quote_back
    by_cases hc : s[n]? = some '\\'
    · simp only [hc, if_true]
      rw [ih]
      cases odd
      · simp only [Bool.not_false, if_true, Bool.false_eq_true, if_false]
      · simp only [Bool.not_true, Bool.false_eq_true, if_false, if_true]
        omega
    · simp only [hc, if_false]
      cases odd <;> simp

theorem dquote_ne_nul : '"' ≠ '\x00' := by decide

theorem space_ne_nul : ' ' ≠ '\x00' := by decide

theorem wcschr_some (c : Char) (hc : c ≠ '\x00') :
    ∀ (s : List Char) (i : Nat), wcschr s c = some i →
      s[i]? = some c ∧ ∀ j, j < i → s[j]? ≠ some c
  | [], i, h => by simp [wcschr, hc] at h
  | x :: xs, i, h => by
    unfold wcschr at h
    by_cases hx : x = c
    · simp [hx] at h
      subst h
      simp [hx]
    · simp only [hx, if_false, Option.map_eq_some'] at h
      obtain ⟨k, hk, rfl⟩ := h
      have ih := wcschr_some c hc xs k hk
      refine ⟨by simpa using ih.1, ?_⟩
      intro j hj
      cases j with
      | zero => simpa using hx
      | succ j => simpa using ih.2 j (by omega)

theorem wcschr_none (c : Char) (hc : c ≠ '\x00') :
    ∀ (s : List Char), wcschr s c = none → ∀ j : Nat, s[j]? ≠ some c
  | [], _, j => by simp
  | x :: xs, h, j => by
    unfold wcschr at h
    by_cases hx : x = c
    · simp [hx] at h
    · simp only [hx, if_false, Option.map_eq_none'] at h
      cases j with
      | zero => simpa using hx
      | succ j => simpa using wcschr_none c hc xs h j

theorem wcschr_eq_none_iff (c : Char) (hc : c ≠ '\x00') (s : List Char) :
    wcschr s c = none ↔ c ∉ s := by
  constructor
  · intro h hmem
    obtain ⟨i, hi⟩ := List.mem_iff_getElem?.1 hmem
    exact wcschr_none c hc s h i hi
  · intro h
    cases hq : wcschr s c with
    | none => rfl
    | some i =>
      exact absurd (List.mem_iff_getElem?.2 ⟨i, (wcschr_some c hc s i hq).1⟩) h

theorem wcschr_take_drop (c : Char) (hc : c ≠ '\x00') :
    ∀ (s : List Char) (e : Nat), wcschr s c = some e →
      s.take e = s.takeWhile (· ≠ c) ∧ s.drop e = s.dropWhile (· ≠ c)
  | [], e, h => by simp [wcschr, hc] at h
  | x :: xs, e, h => by
    unfold wcschr at h
    by_cases hx : x = c
    · simp [hx] at h
      subst h
      simp [hx, List.takeWhile_cons, List.dropWhile_cons]
    · simp only [hx, if_false, Option.map_eq_some'] at h
      obtain ⟨k, hk, rfl⟩ := h
      have ih := wcschr_take_drop c hc xs k hk
      simp [List.takeWhile_cons, List.dropWhile_cons, hx, ih.1, ih.2]

theorem wcschr_none_take_drop (c : Char) (hc : c ≠ '\x00') :
    ∀ (s : List Char), wcschr s c = none →
      s = s.takeWhile (· ≠ c) ∧ [] = s.dropWhile (· ≠ c)
  | [], _ => by simp
  | x :: xs, h => by
    unfold wcschr at h
    by_cases hx : x = c
    · simp [hx] at h
    · simp only [hx, if_false, Option.map_eq_none'] at h
      have ih := wcschr_none_take_drop c hc xs h
      simpa [List.takeWhile_cons, List.dropWhile_cons, hx] using ih

theorem next_quote_some (s : List Char) (k e : Nat)
    (h : (wcschr (s.drop k) '"').map (· + k) = some e) :
    k ≤ e ∧ s[e]? = some '"' ∧ ∀ j, k ≤ j → j < e → s[j]? ≠ some '"' := by
  simp only [Option.map_eq_some'] at h
  obtain ⟨i, hi, rfl⟩ := h
  have := wcschr_some '"' dquote_ne_nul _ _ hi
  refine ⟨by omega, ?_, ?_⟩
  · have h1 := this.1
    rw [List.getElem?_drop] at h1
    rwa [Nat.add_comm]
  · intro j hkj hj
    have h2 := this.2 (j - k) (by omega)
    rw [List.getElem?_drop] at h2
    have : k + (j - k) = j := by omega
    rwa [this] at h2

theorem next_quote_none (s : List Char) (k : Nat)
    (h : (wcschr (s.drop k) '"').map (· + k) = none) :
    ∀ j, k ≤ j → s[j]? ≠ some '"' := by
  simp only [Option.map_eq_none'] at h
  intro j hkj
  have h2 := wcschr_none '"' dquote_ne_nul _ h (j - k)
  rw [List.getElem?_drop] at h2
  have : k + (j - k) = j := by omega
  rwa [this] at h2

/-- The loop of `find_quote`, entered with the next quote at or after `k` while no position
before `k` is an unescaped quote and the fuel covers the rest of the string, ends with the
first unescaped quote of the string. -/
theorem find_quote_loop_first (s : List Char) :
    ∀ (fuel k : Nat), s.length < fuel + k →
      (∀ j, j < k → ¬ unescaped_quote_at s j) →
      first_unescaped_quote s
        (find_quote_loop s fuel ((wcschr (s.drop k) '"').map (· + k)))
  | 0, k, hlen, hinv => by
    unfold find_quote_loop
    intro i hi
    have hlt : i < s.length := by
      have := hi.1
      by_contra hge
      rw [List.getElem?_eq_none (by omega)] at this
      cases this
    exact hinv i (by omega) hi
  | fuel + 1, k, hlen, hinv => by
    cases hq : (wcschr (s.drop k) '"').map (· + k) with
    | none =>
      unfold find_quote_loop
      intro i hi
      by_cases hik : i < k
      · exact hinv i hik hi
      · exact next_quote_none s k hq i (by omega) hi.1
    | some e =>
      obtain ⟨hke, hqe, hno⟩ := next_quote_some s k e hq
      have helt : e < s.length := by
        by_contra hge
        rw [List.getElem?_eq_none (by omega)] at hqe
        cases hqe
      have hbefore : ∀ j, j < e → ¬ unescaped_quote_at s j := by
        intro j hj hu
        by_cases hjk : j < k
        · exact hinv j hjk hu
        · exact hno j (by omega) hj hu.1
      have hpar := find_quote_back_eq s e false (by omega)
      simp only [Bool.false_eq_true, if_false, Nat.add_zero] at hpar
      unfold find_quote_loop
      by_cases hb : find_quote_back s e false = false
      · simp only [hb, if_true]
        exact ⟨⟨hqe, hpar.1 hb⟩, hbefore⟩
      · simp only [hb, if_false]
        apply find_quote_loop_first s fuel (e + 1) (by omega)
        intro j hj hu
        by_cases hje : j < e
        · exact hbefore j hje hu
        · have : j = e := by omega
          subst this
          exact hb (hpar.2 hu.2)

theorem find_quote_first (s : List Char) : first_unescaped_quote s (find_quote s) := by
  have := find_quote_loop_first s (s.length + 1) 0 (by omega) (by intro j hj; omega)
  simpa [find_quote] using this

theorem first_unescaped_quote_unique (s : List Char) (a b : Option Nat)
    (ha : first_unescaped_quote s a) (hb : first_unescaped_quote s b) : a = b := by
  cases a with
  | none =>
    cases b with
    | none => rfl
    | some j => exact absurd hb.1 (ha j)
  | some i =>
    cases b with
    | none => exact absurd ha.1 (hb i)
    | some j =>
      have h1 : ¬ i < j := fun h => hb.2 i h ha.1
      have h2 : ¬ j < i := fun h => ha.2 j h hb.1
      have : i = j := by omega
      rw [this]

theorem find_quote_eq_of_first (s : List Char) (r : Option Nat)
    (h : first_unescaped_quote s r) : find_quote s = r :=
  first_unescaped_quote_unique s _ _ (find_quote_first s) h

theorem find_quote_eq_some_iff (s : List Char) (i : Nat) :
    find_quote s = some i ↔
      (unescaped_quote_at s i ∧ ∀ j, j < i → ¬ unescaped_quote_at s j) := by
  constructor
  · intro h
    have hf := find_quote_first s
    rw [h] at hf
    exact hf
  · intro h
    exact find_quote_eq_of_first s (some i) h

theorem find_quote_eq_none_iff (s : List Char) :
    find_quote s = none ↔ ∀ i, ¬ unescaped_quote_at s i := by
  constructor
  · intro h
    have hf := find_quote_first s
    rw [h] at hf
    exact hf
  · intro h
    exact find_quote_eq_of_first s none h

/-- C2: for every string `s`, `find_quote s` returns position `i` exactly when `i` holds a quote
preceded within `s` by an even number (zero included) of consecutive backslashes and no earlier
position does (quotes after an odd number of backslashes are skipped and the scan goes on), and
it returns no position exactly when `s` has no such quote. -/
theorem find_quote_correct (s : List Char) :
    (∀ i, find_quote s = some i ↔
      (unescaped_quote_at s i ∧ ∀ j, j < i → ¬ unescaped_quote_at s j)) ∧
    (find_quote s = none ↔ ∀ i, ¬ unescaped_quote_at s i) :=
  ⟨find_quote_eq_some_iff s, find_quote_eq_none_iff s⟩

/-- A quote preceded by one backslash is skipped, the next one preceded by two is found. -/
theorem find_quote_correct_witness :
    find_quote "a\\\"b\\\\\"c".toList = some 6 ∧
    unescaped_quote_at "a\\\"b\\\\\"c".toList 6 ∧
    ¬ unescaped_quote_at "a\\\"b\\\\\"c".toList 2 ∧
    (∀ i, ¬ unescaped_quote_at "a\\\"b".toList i) :=
  ⟨by decide, (((find_quote_correct "a\\\"b\\\\\"c".toList).1 6).1 (by decide)).1,
   (((find_quote_correct "a\\\"b\\\\\"c".toList).1 6).1 (by decide)).2 2 (by decide),
   (find_quote_correct "a\\\"b".toList).2.1 (by decide)⟩

/-! ## The trace of `run_process` -/

theorem process_creations_append (a b : List Call) :
    process_creations (a ++ b) = process_creations a ++ process_creations b := by
  induction a with
  | nil => rfl
  | cons x xs ih => cases x <;> simp [process_creations, ih]

theorem process_creations_handshake (env : Env) :
    process_creations (steam_ceg_interface env).1 = [] := by
  unfold steam_ceg_interface
  split
  · rfl
  · split
    · rfl
    · simp only []
      split <;> [split; skip] <;> simp [process_creations]

/-- Once `argv[0]` is skipped, `run_process` attempts one process creation, with the command
line and the flags reached at the label `run`. -/
theorem run_process_creations (env : Env) (raw cmd : List Char)
    (h : run_process_skip_argv0 raw = some cmd) :
    process_creations (run_process env raw).1 = [run_process_convert env cmd] := by
  have hs := process_creations_handshake env
  unfold run_process
  simp only [h]
  split
  · simp [process_creations]
  · split
    · next t f heq =>
      rw [heq] at hs
      simp only [process_creations_append, hs]
      simp [process_creations]
    · next t heq =>
      rw [heq] at hs
      simp only [process_creations_append, hs]
      simp [process_creations]

theorem starts_with_one (c : Char) (s : List Char) : [c] <+: s ↔ s[0]? = some c := by
  cases s with
  | nil => simp
  | cons x xs => simp [List.cons_prefix_cons, eq_comm]

theorem starts_with_two (a b : Char) (s : List Char) :
    [a, b] <+: s ↔ s[0]? = some a ∧ s[1]? = some b := by
  cases s with
  | nil => simp
  | cons x xs =>
    cases xs with
    | nil => simp [List.cons_prefix_cons]
    | cons y ys => simp [List.cons_prefix_cons, eq_comm]

/-! ## Skipping `argv[0]` -/

theorem skip_argv0_none_iff (raw : List Char) :
    run_process_skip_argv0 raw = none ↔ no_argv0_terminator raw := by
  unfold run_process_skip_argv0 no_argv0_terminator
  rw [starts_with_one]
  by_cases hq : raw[0]? = some '"'
  · simp only [hq, if_true, Option.map_eq_none', not_true_eq_false, false_and, or_false,
      true_and]
    exact find_quote_eq_none_iff (raw.drop 1)
  · simp only [hq, if_false, Option.map_eq_none', not_false_eq_true, false_and, false_or,
      true_and]
    exact wcschr_eq_none_iff ' ' space_ne_nul raw

theorem invalid_command_iff (env : Env) (raw : List Char) :
    invalid_command (run_process env raw) ↔ run_process_skip_argv0 raw = none := by
  constructor
  · intro h
    cases hs : run_process_skip_argv0 raw with
    | none => rfl
    | some cmd =>
      have := run_process_creations env raw cmd hs
      rw [h.2.2] at this
      cases this
  · intro h
    unfold run_process invalid_command
    simp [h, process_creations]

/-- C9: `run_process` ends with the invalid-command outcome (`INVALID_HANDLE_VALUE`, channel not
set up, no process creation attempted) if and only if `argv[0]` has no terminator: the raw line
starts with a quote and has no unescaped quote after it, or it does not start with a quote and
holds no space.  Otherwise the text to launch is what follows the terminator, leading spaces
skipped: after a quoted `argv[0]` the text behind the closing quote, else the text from the
first space on; and that text is what the translation step and the one process creation get. -/
theorem run_process_invalid_command (env : Env) (raw : List Char) :
    (invalid_command (run_process env raw) ↔ no_argv0_terminator raw) ∧
    (∀ e, ['"'] <+: raw → first_unescaped_quote (raw.drop 1) (some e) →
      run_process_skip_argv0 raw =
        some (((raw.drop 1).drop (e + 1)).dropWhile (· = ' '))) ∧
    (¬ ['"'] <+: raw → ' ' ∈ raw →
      run_process_skip_argv0 raw =
        some ((raw.dropWhile (· ≠ ' ')).dropWhile (· = ' '))) ∧
    (∀ cmd, run_process_skip_argv0 raw = some cmd →
      process_creations (run_process env raw).1 = [run_process_convert env cmd]) := by
  refine ⟨?_, ?_, ?_, ?_⟩
  · rw [invalid_command_iff, skip_argv0_none_iff]
  · intro e hpre hq
    rw [starts_with_one] at hpre
    have hf := find_quote_eq_of_first _ _ hq
    unfold run_process_skip_argv0
    simp only [hpre, if_true, hf, Option.map_some']
  · intro hpre hmem
    rw [starts_with_one] at hpre
    unfold run_process_skip_argv0
    cases hw : wcschr raw ' ' with
    | none => exact absurd hmem ((wcschr_eq_none_iff ' ' space_ne_nul raw).1 hw)
    | some i =>
      obtain ⟨_, hd⟩ := wcschr_take_drop ' ' space_ne_nul raw i hw
      simp [hpre, hd]
  · intro cmd h
    exact run_process_creations env raw cmd h

/-- An unterminated quoted `argv[0]` is the invalid command; after a terminated one the text
behind the closing quote and the spaces is launched. -/
theorem run_process_invalid_command_witness :
    invalid_command (run_process env_timeout "\"C:\\stub.exe game.exe".toList) ∧
    run_process_skip_argv0 "\"C:\\stub.exe\"   game.exe -x".toList =
      some "game.exe -x".toList ∧
    run_process_skip_argv0 "steam.exe  game.exe -x".toList = some "game.exe -x".toList :=
  ⟨(run_process_invalid_command env_timeout "\"C:\\stub.exe game.exe".toList).1.2
      (Or.inl ⟨by decide, (find_quote_eq_none_iff _).1 (by decide)⟩),
   (run_process_invalid_command env_timeout "\"C:\\stub.exe\"   game.exe -x".toList).2.1 11
      (by decide) ((find_quote_eq_some_iff _ 11).1 (by decide)),
   (run_process_invalid_command env_timeout "steam.exe  game.exe -x".toList).2.2.1
      (by decide) (by decide)⟩

/-! ## Path translation -/

theorem convert_native (env : Env) (cmd : List Char)
    (h1 : ¬ ['/'] <+: cmd) (h2 : ¬ ['"', '/'] <+: cmd) :
    run_process_convert env cmd = (cmd, 0) := by
  rw [starts_with_one] at h1
  rw [starts_with_two] at h2
  unfold run_process_convert
  rw [if_neg]
  rintro (h | h)
  · exact h1 h
  · exact h2 h

/-- The tail of the translation block (lines 314-353) on the token `p` and the remainder `r`,
when both conversions and the resolution succeed. -/
theorem convert_success (env : Env) (cmd p r d : List Char)
    (hok : translation_succeeds env p d) :
    (match (some (p, r) : Option (List Char × List Char)) with
      | none => (cmd, 0)
      | some (scratchW, remainder) =>
        let r := env.WideCharToMultiByte_size scratchW
        if r = 0 then (cmd, 0)
        else
          let converted := env.WideCharToMultiByte scratchW r
          if converted.1 = 0 then (cmd, 0)
          else
            let dos := env.wine_get_dos_file_name converted.2
            let console := env.SHGetFileInfoW dos
            let flags :=
              if console ≠ 0 ∧ HIWORD console = 0 then 0 ||| CREATE_NEW_CONSOLE else 0
            let new_cmdline :=
              lstrcatW (lstrcatW (lstrcatW ['"'] dos) (some ['"'])) (some remainder)
            (new_cmdline, flags)) = ('"' :: d ++ '"' :: r, console_flags env d) := by
  obtain ⟨h1, h2, h3⟩ := hok
  simp only [h1, h2, h3, if_false, lstrcatW, console_flags, Nat.zero_or]
  simp

/-- The tail of the translation block when the size query or the conversion fails. -/
theorem convert_failure (env : Env) (cmd p r : List Char)
    (hfail : env.WideCharToMultiByte_size p = 0 ∨
      (env.WideCharToMultiByte p (env.WideCharToMultiByte_size p)).1 = 0) :
    (match (some (p, r) : Option (List Char × List Char)) with
      | none => (cmd, 0)
      | some (scratchW, remainder) =>
        let r := env.WideCharToMultiByte_size scratchW
        if r = 0 then (cmd, 0)
        else
          let converted := env.WideCharToMultiByte scratchW r
          if converted.1 = 0 then (cmd, 0)
          else
            let dos := env.wine_get_dos_file_name converted.2
            let console := env.SHGetFileInfoW dos
            let flags :=
              if console ≠ 0 ∧ HIWORD console = 0 then 0 ||| CREATE_NEW_CONSOLE else 0
            let new_cmdline :=
              lstrcatW (lstrcatW (lstrcatW ['"'] dos) (some ['"'])) (some remainder)
            (new_cmdline, flags)) = (cmd, 0) := by
  rcases hfail with h | h
  · simp only [h, if_true]
  · by_cases h0 : env.WideCharToMultiByte_size p = 0
    · simp only [h0, if_true]
    · simp only [h0, if_false, h, if_true]

theorem convert_quoted (env : Env) (cmd d : List Char) (e : Nat)
    (hpre : ['"', '/'] <+: cmd)
    (hq : first_unescaped_quote (cmd.drop 1) (some e))
    (hok : translation_succeeds env ((cmd.drop 1).take e) d) :
    run_process_convert env cmd =
      ('"' :: d ++ '"' :: (cmd.drop 1).drop (e + 1), console_flags env d) := by
  rw [starts_with_two] at hpre
  have hf := find_quote_eq_of_first _ _ hq
  unfold run_process_convert
  rw [if_pos (Or.inr hpre)]
  simp only [hpre.1, if_true, hf]
  exact convert_success env cmd _ _ d hok

theorem convert_unquoted (env : Env) (cmd d : List Char)
    (hpre : ['/'] <+: cmd)
    (hok : translation_succeeds env (cmd.takeWhile (· ≠ ' ')) d) :
    run_process_convert env cmd =
      ('"' :: d ++ '"' :: cmd.dropWhile (· ≠ ' '), console_flags env d) := by
  rw [starts_with_one] at hpre
  have hnq : ¬ (cmd[0]? = some '"') := by
    rw [hpre]; decide
  unfold run_process_convert
  rw [if_pos (Or.inl hpre)]
  simp only [hnq, if_false]
  cases hw : wcschr cmd ' ' with
  | none =>
    obtain ⟨ht, hd⟩ := wcschr_none_take_drop ' ' space_ne_nul cmd hw
    rw [← ht] at hok
    rw [← hd]
    simp only [List.take_length, List.drop_length]
    exact convert_success env cmd _ _ d hok
  | some i =>
    obtain ⟨ht, hd⟩ := wcschr_take_drop ' ' space_ne_nul cmd i hw
    simp only [ht, hd]
    exact convert_success env cmd _ _ d hok

/-- The three `goto run` exits of the translation block keep the command line and flags 0: a
quoted path without a closing unescaped quote, a failed size query, a failed conversion. -/
theorem convert_fallback (env : Env) (cmd : List Char) :
    (['"', '/'] <+: cmd → (∀ i, ¬ unescaped_quote_at (cmd.drop 1) i) →
      run_process_convert env cmd = (cmd, 0)) ∧
    (∀ e, ['"', '/'] <+: cmd → first_unescaped_quote (cmd.drop 1) (some e) →
      (env.WideCharToMultiByte_size ((cmd.drop 1).take e) = 0 ∨
        (env.WideCharToMultiByte ((cmd.drop 1).take e)
          (env.WideCharToMultiByte_size ((cmd.drop 1).take e))).1 = 0) →
      run_process_convert env cmd = (cmd, 0)) ∧
    (['/'] <+: cmd →
      (env.WideCharToMultiByte_size (cmd.takeWhile (· ≠ ' ')) = 0 ∨
        (env.WideCharToMultiByte (cmd.takeWhile (· ≠ ' '))
          (env.WideCharToMultiByte_size (cmd.takeWhile (· ≠ ' ')))).1 = 0) →
      run_process_convert env cmd = (cmd, 0)) := by
  refine ⟨?_, ?_, ?_⟩
  · intro hpre hno
    rw [starts_with_two] at hpre
    have hf := (find_quote_eq_none_iff _).2 hno
    unfold run_process_convert
    rw [if_pos (Or.inr hpre)]
    simp only [hpre.1, if_true, hf]
  · intro e hpre hq hfail
    rw [starts_with_two] at hpre
    have hf := find_quote_eq_of_first _ _ hq
    unfold run_process_convert
    rw [if_pos (Or.inr hpre)]
    simp only [hpre.1, if_true, hf]
    exact convert_failure env cmd _ _ hfail
  · intro hpre hfail
    rw [starts_with_one] at hpre
    have hnq : ¬ (cmd[0]? = some '"') := by
      rw [hpre]; decide
    have htok : cmd.take (match wcschr cmd ' ' with
        | some e => e
        | none => cmd.length) = cmd.takeWhile (· ≠ ' ') := by
      cases hw : wcschr cmd ' ' with
      | none =>
        have := (wcschr_none_take_drop ' ' space_ne_nul cmd hw).1
        simp only [List.take_length]
        exact this
      | some i => exact (wcschr_take_drop ' ' space_ne_nul cmd i hw).1
    unfold run_process_convert
    rw [if_pos (Or.inl hpre)]
    simp only [hnq, if_false, htok]
    exact convert_failure env cmd _ _ hfail

/-- C10: for every command line whose text `cmd` after `argv[0]` and the following spaces
starts with neither `/` nor `"/`, the one process creation of `run_process` gets exactly `cmd`
and creation flags 0 (no new console). -/
theorem run_process_native_identity (env : Env) (raw cmd : List Char)
    (hskip : run_process_skip_argv0 raw = some cmd)
    (h1 : ¬ ['/'] <+: cmd) (h2 : ¬ ['"', '/'] <+: cmd) :
    process_creations (run_process env raw).1 = [(cmd, 0)] := by
  rw [run_process_creations env raw cmd hskip, convert_native env cmd h1 h2]

/-- A native command line, here with a quoted native path, is launched unchanged with flags 0. -/
theorem run_process_native_identity_witness :
    process_creations
        (run_process env_timeout "steam.exe \"C:\\game\\run.exe\" -w".toList).1 =
      [("\"C:\\game\\run.exe\" -w".toList, 0)] :=
  run_process_native_identity env_timeout "steam.exe \"C:\\game\\run.exe\" -w".toList
    "\"C:\\game\\run.exe\" -w".toList (by decide) (by decide) (by decide)

/-- C3: for every command line whose text `cmd` after `argv[0]` and the following spaces starts
with a foreign absolute path, and for which both conversions and the resolution of the token
succeed with native path `d`, the one process creation of `run_process` gets
`"` + `d` + `"` + remainder.  For `cmd` starting with `"/` the token is the text between the
opening quote and the first unescaped quote after it and the remainder everything after that
quote; for `cmd` starting with `/` the token runs to the first space or the end of the line and
the remainder starts at that space. -/
theorem run_process_translates (env : Env) (raw cmd d : List Char)
    (hskip : run_process_skip_argv0 raw = some cmd) :
    (∀ e, ['"', '/'] <+: cmd → first_unescaped_quote (cmd.drop 1) (some e) →
      translation_succeeds env ((cmd.drop 1).take e) d →
      process_creations (run_process env raw).1 =
        [('"' :: d ++ '"' :: (cmd.drop 1).drop (e + 1), console_flags env d)]) ∧
    (['/'] <+: cmd → translation_succeeds env (cmd.takeWhile (· ≠ ' ')) d →
      process_creations (run_process env raw).1 =
        [('"' :: d ++ '"' :: cmd.dropWhile (· ≠ ' '), console_flags env d)]) := by
  rw [run_process_creations env raw cmd hskip]
  constructor
  · intro e hpre hq hok
    rw [convert_quoted env cmd d e hpre hq hok]
  · intro hpre hok
    rw [convert_unquoted env cmd d hpre hok]

/-- The scenario line: the token is `/home/user/game/bin/launch`, the remainder
` --fullscreen`, and the process is created with the resolved path in quotes followed by the
remainder; the same without the quotes around the path. -/
theorem run_process_translates_witness :
    run_process_skip_argv0 scenario_cmdline =
      some "\"/home/user/game/bin/launch\" --fullscreen".toList ∧
    ("/home/user/game/bin/launch\" --fullscreen".toList).take 26 =
      "/home/user/game/bin/launch".toList ∧
    ("/home/user/game/bin/launch\" --fullscreen".toList).drop 27 = " --fullscreen".toList ∧
    process_creations (run_process env_timeout scenario_cmdline).1 =
      [("\"Z:\\home\\user\\game\\bin\\launch\" --fullscreen".toList, CREATE_NEW_CONSOLE)] ∧
    process_creations
        (run_process env_timeout "steam.exe /home/user/game/bin/launch --fullscreen".toList).1 =
      [("\"Z:\\home\\user\\game\\bin\\launch\" --fullscreen".toList, CREATE_NEW_CONSOLE)] :=
  ⟨by decide, by decide, by decide,
   (run_process_translates env_timeout scenario_cmdline
      "\"/home/user/game/bin/launch\" --fullscreen".toList
      "Z:\\home\\user\\game\\bin\\launch".toList (by decide)).1 26 (by decide)
      ((find_quote_eq_some_iff _ 26).1 (by decide)) ⟨by decide, by decide, by decide⟩,
   (run_process_translates env_timeout
      "steam.exe /home/user/game/bin/launch --fullscreen".toList
      "/home/user/game/bin/launch --fullscreen".toList
      "Z:\\home\\user\\game\\bin\\launch".toList (by decide)).2 (by decide)
      ⟨by decide, by decide, by decide⟩⟩

/-! ## The decoder -/

theorem c_string_append (a rest : List Nat) (h : ∀ x ∈ a, x ≠ 0) :
    c_string (a ++ 0 :: rest) = some a := by
  induction a with
  | nil => simp [c_string]
  | cons x xs ih =>
    have hx : x ≠ 0 := h x (by simp)
    have := ih (fun y hy => h y (by simp [hy]))
    simp [c_string, hx, this]

theorem c_string_replicate (n b : Nat) (hb : b ≠ 0) :
    c_string (List.replicate n b) = none := by
  induction n with
  | zero => simp [c_string]
  | succ n ih => simp [List.replicate_succ, c_string, hb, ih]

/-- After a string has been read, the cursor moved by its length stands on its terminator and
reads the empty string. -/
theorem c_string_drop : ∀ (l a : List Nat), c_string l = some a →
    c_string (l.drop a.length) = some []
  | [], a, h => by simp [c_string] at h
  | b :: bs, a, h => by
    unfold c_string at h
    by_cases hb : b = 0
    · simp only [hb, if_true, Option.some.injEq] at h
      subst h
      simp [c_string, hb]
    · simp only [hb, if_false, Option.map_eq_some'] at h
      obtain ⟨t, ht, rfl⟩ := h
      simpa using c_string_drop bs t ht

theorem mailbox_of_length (content : List Nat) (h : content.length ≤ 4096) :
    (mailbox_of content).length = 4096 := by
  simp [mailbox_of]; omega

theorem c_string_mailbox_of (hdr a : List Nat) (h8 : hdr.length = 8)
    (ha : ∀ x ∈ a, x ≠ 0) (hlen : hdr.length + a.length < 4096) :
    c_string ((mailbox_of (hdr ++ a)).drop 8) = some a := by
  unfold mailbox_of
  rw [List.append_assoc, ← h8, List.drop_left]
  obtain ⟨k, hk⟩ : ∃ k, 4096 - (hdr ++ a).length = k + 1 :=
    ⟨4096 - (hdr ++ a).length - 1, by simp; omega⟩
  rw [hk, List.replicate_succ]
  exact c_string_append a _ ha

/-- On a mailbox whose first text field is terminated and fits: the integer fields hold the low
32 bits of the mapping address and of the address plus 4, the first text field holds the
string at offset 8, and the other two are empty. -/
theorem steam_ceg_interface_decode_ok (file_mapping : Nat) (mailbox a : List Nat)
    (h : c_string (mailbox.drop 8) = some a) (hl : a.length ≤ 255) :
    steam_ceg_interface_decode file_mapping mailbox =
      .ok ⟨file_mapping % 2 ^ 32, (file_mapping + 4) % 2 ^ 32, a, [], []⟩ := by
  have h2 : c_string (mailbox.drop (8 + a.length)) = some [] := by
    have := c_string_drop _ _ h
    rwa [List.drop_drop] at this
  have hl1 : a.length + 1 ≤ 256 := by omega
  simp [steam_ceg_interface_decode, strcpy, h, h2, hl1, bind, Except.bind, pure, Except.pure]

theorem steam_ceg_interface_decode_overflow (file_mapping : Nat) (mailbox a : List Nat)
    (h : c_string (mailbox.drop 8) = some a) (hl : 255 < a.length) :
    steam_ceg_interface_decode file_mapping mailbox =
      .error (.write_past_field (a.length + 1)) := by
  have hl1 : ¬ a.length + 1 ≤ 256 := by omega
  simp [steam_ceg_interface_decode, strcpy, h, hl1, bind, Except.bind]

theorem steam_ceg_interface_decode_unterminated (file_mapping : Nat) (mailbox : List Nat)
    (h : c_string (mailbox.drop 8) = none) :
    steam_ceg_interface_decode file_mapping mailbox = .error .read_past_mailbox := by
  simp [steam_ceg_interface_decode, strcpy, h, bind, Except.bind]

/-- Whatever the decoder returns has the shape of `steam_ceg_interface_decode_ok`. -/
theorem steam_ceg_interface_decode_inv (file_mapping : Nat) (mailbox : List Nat)
    (info : steam_app_ceg_info)
    (h : steam_ceg_interface_decode file_mapping mailbox = .ok info) :
    info.pid = file_mapping % 2 ^ 32 ∧ info.active_process = (file_mapping + 4) % 2 ^ 32 ∧
    c_string (mailbox.drop 8) = some info.startup_module ∧
    info.startup_module.length ≤ 255 ∧ info.start_event = [] ∧ info.term_event = [] := by
  cases hc : c_string (mailbox.drop 8) with
  | none =>
    rw [steam_ceg_interface_decode_unterminated file_mapping mailbox hc] at h
    cases h
  | some a =>
    by_cases hl : a.length ≤ 255
    · rw [steam_ceg_interface_decode_ok file_mapping mailbox a hc hl] at h
      cases h
      exact ⟨rfl, rfl, rfl, hl, rfl, rfl⟩
    · rw [steam_ceg_interface_decode_overflow file_mapping mailbox a hc (by omega)] at h
      cases h

/-- Three consecutive strings `a`, `b`, `c` from offset 8 on, `a` of at most 255 bytes: the
decoder yields `a` and two empty fields, whatever `b` and `c` are. -/
theorem steam_ceg_interface_decode_consecutive (file_mapping : Nat)
    (hdr a b c rest : List Nat) (h8 : hdr.length = 8) (ha : ∀ x ∈ a, x ≠ 0)
    (hl : a.length ≤ 255) :
    steam_ceg_interface_decode file_mapping (hdr ++ (a ++ 0 :: (b ++ 0 :: (c ++ 0 :: rest)))) =
      .ok ⟨file_mapping % 2 ^ 32, (file_mapping + 4) % 2 ^ 32, a, [], []⟩ := by
  apply steam_ceg_interface_decode_ok _ _ _ _ hl
  rw [← h8, List.drop_left]
  exact c_string_append a _ ha

/-- C1, evaluated: a 4096-byte mailbox holds, from offset 8 on, the three strings
`C:\tmp\stage123.tmp`, `GameStartEvt` and `GameTermEvt`; the decoder yields the first string as
`startup_module` and the empty string as `start_event` and as `term_event`, because the cursor
moves by `strlen` and stays on the terminator of the first string. -/
theorem steam_ceg_interface_decode_three_strings :
    three_strings_mailbox.length = 4096 ∧
    (three_strings_mailbox.drop 8).take 45 =
      bytes "C:\\tmp\\stage123.tmp" ++ 0 :: (bytes "GameStartEvt" ++ 0 ::
        (bytes "GameTermEvt" ++ [0])) ∧
    steam_ceg_interface_decode 0x10000 three_strings_mailbox =
      .ok ⟨0x10000, 0x10004, bytes "C:\\tmp\\stage123.tmp", [], []⟩ :=
  ⟨mailbox_of_length _ (by decide), by decide,
   steam_ceg_interface_decode_ok 0x10000 three_strings_mailbox _ (by decide) (by decide)⟩

/-- C7, evaluated: the scenario mailbox stores 4242 in bytes 0..3 and 1 in bytes 4..7 and is
mapped at address 0x10000; the decoder yields pid 0x10000 and active_process 0x10004, the low
32 bits of the cursor, and not the stored values. -/
theorem steam_ceg_interface_decode_reads_cursor :
    le32 scenario_mailbox 0 = 4242 ∧ le32 scenario_mailbox 4 = 1 ∧
    steam_ceg_interface_decode 0x10000 scenario_mailbox =
      .ok ⟨0x10000, 0x10004, bytes "C:\\tmp\\stage123.tmp", [], []⟩ :=
  ⟨by decide, by decide,
   steam_ceg_interface_decode_ok 0x10000 scenario_mailbox _ (by decide) (by decide)⟩

/-- C6, evaluated: on a 4096-byte mailbox whose first text field is 300 bytes long the copy
into the 256-byte field is 301 bytes long, and on a 4096-byte mailbox without a NUL byte the
copy reads past the end of the mailbox; nothing is truncated. -/
theorem steam_ceg_interface_decode_unbounded :
    oversize_mailbox.length = 4096 ∧
    steam_ceg_interface_decode 0x10000 oversize_mailbox = .error (.write_past_field 301) ∧
    unterminated_mailbox.length = 4096 ∧
    steam_ceg_interface_decode 0x10000 unterminated_mailbox = .error .read_past_mailbox := by
  have hlen : (List.replicate 8 0 ++ List.replicate 300 65 : List Nat).length = 308 := by
    rw [List.length_append, List.length_replicate, List.length_replicate]
  refine ⟨mailbox_of_length _ (by rw [hlen]; decide), ?_,
    by rw [unterminated_mailbox, List.length_replicate], ?_⟩
  · have h := c_string_mailbox_of (List.replicate 8 0) (List.replicate 300 65)
      (List.length_replicate 8 0)
      (by intro x hx; rw [List.eq_of_mem_replicate hx]; decide)
      (by rw [List.length_replicate, List.length_replicate]; decide)
    have := steam_ceg_interface_decode_overflow 0x10000 oversize_mailbox _ h
      (by rw [List.length_replicate]; decide)
    rw [List.length_replicate] at this
    exact this
  · apply steam_ceg_interface_decode_unterminated
    unfold unterminated_mailbox
    rw [List.drop_replicate]
    exact c_string_replicate _ 65 (by decide)

/-! ## The handshake -/

/-- The calls of `steam_ceg_interface` are decided by the result of the wait: none when the
wait is not signaled, and when it is signaled and the decoder returns `info`, the deletion of
`info.startup_module`, the event steps only for a non-empty `info.start_event`, and one release
by 1 of each produce semaphore, whatever the deletion and the event opening answer. -/
theorem steam_ceg_interface_effects (env : Env) :
    (env.WaitForSingleObject ≠ WAIT_OBJECT_0 → steam_ceg_interface env = ([], .ok ())) ∧
    (env.WaitForSingleObject = WAIT_OBJECT_0 → ∀ info,
      steam_ceg_interface_decode env.file_mapping env.mailbox = .ok info →
      steam_ceg_interface env = (handshake_effects env info, .ok ())) := by
  constructor
  · intro hw
    unfold steam_ceg_interface
    rw [if_pos hw]
  · intro hw info hd
    unfold steam_ceg_interface handshake_effects
    rw [if_neg (by simpa using hw)]
    simp only [hd]
    by_cases he : info.start_event = []
    · simp [he]
    · by_cases ho : env.OpenEventA info.start_event = true
      · simp [he, ho]
      · simp [he, ho]

/-- A signaled handshake whose mailbox the decoder can read makes exactly three calls: it
deletes the file named by the string at offset 8 and releases each produce semaphore once by 1;
no event is opened, since the decoded `start_event` is always empty. -/
theorem steam_ceg_interface_signaled (env : Env) (info : steam_app_ceg_info)
    (hw : env.WaitForSingleObject = WAIT_OBJECT_0)
    (hd : steam_ceg_interface_decode env.file_mapping env.mailbox = .ok info) :
    steam_ceg_interface env =
      ([Call.DeleteFileA info.startup_module, Call.ReleaseSemaphore 0 1,
        Call.ReleaseSemaphore 1 1], .ok ()) := by
  have he := (steam_ceg_interface_decode_inv _ _ _ hd).2.2.2.2.1
  rw [(steam_ceg_interface_effects env).2 hw info hd]
  simp [handshake_effects, he]

/-- C5, evaluated: the wait is signaled and the 4096-byte mailbox holds no NUL byte; the copy of
the first text field runs past the mailbox before any other call is made, so neither the
deletion nor a release of a produce semaphore is reached, in `steam_ceg_interface` and in the
`run_process` around it. -/
theorem steam_ceg_interface_unterminated :
    (env_signaled unterminated_mailbox).WaitForSingleObject = WAIT_OBJECT_0 ∧
    steam_ceg_interface (env_signaled unterminated_mailbox) =
      ([], .error .read_past_mailbox) ∧
    run_process (env_signaled unterminated_mailbox) "steam.exe game.exe".toList =
      ([Call.setup_ceg_handles, Call.CreateProcessW "game.exe".toList 0],
        .error .read_past_mailbox) := by
  have hd : steam_ceg_interface_decode (env_signaled unterminated_mailbox).file_mapping
      (env_signaled unterminated_mailbox).mailbox = .error .read_past_mailbox := by
    apply steam_ceg_interface_decode_unterminated
    show c_string (List.drop 8 unterminated_mailbox) = none
    unfold unterminated_mailbox
    rw [List.drop_replicate]
    exact c_string_replicate _ 65 (by decide)
  have hs : steam_ceg_interface (env_signaled unterminated_mailbox) =
      ([], .error .read_past_mailbox) := by
    unfold steam_ceg_interface
    rw [if_neg (by decide)]
    simp only [hd]
  refine ⟨rfl, hs, ?_⟩
  have hk : run_process_skip_argv0 "steam.exe game.exe".toList = some "game.exe".toList := by
    decide
  have hc : run_process_convert (env_signaled unterminated_mailbox) "game.exe".toList =
      ("game.exe".toList, 0) := by decide
  unfold run_process
  simp only [hk, hc, hs]
  rfl

/-- The scenario handshake: with the wait signaled and a failing `DeleteFileA`, the deletion of
the staging file is called, no event is opened and both produce semaphores are released by 1,
after which the channel is torn down. -/
theorem run_process_scenario_handshake :
    run_process (env_signaled scenario_mailbox) "steam.exe game.exe".toList =
      ([Call.setup_ceg_handles, Call.CreateProcessW "game.exe".toList 0,
        Call.DeleteFileA (bytes "C:\\tmp\\stage123.tmp"), Call.ReleaseSemaphore 0 1,
        Call.ReleaseSemaphore 1 1, Call.cleanup_ceg_handles, Call.CloseHandle_hThread],
       .ok .hProcess) := by
  rfl

/-! ## Teardown and fallback -/

/-- When the process is created and the handshake returns, the trace of `run_process` is the
setup, the creation, the handshake, the teardown and the closing of the thread handle. -/
theorem run_process_teardown (env : Env) (raw cmd : List Char) (handshake : List Call)
    (hskip : run_process_skip_argv0 raw = some cmd)
    (hspawn : env.CreateProcessW (run_process_convert env cmd).1
      (run_process_convert env cmd).2 = true)
    (hs : steam_ceg_interface env = (handshake, .ok ())) :
    run_process env raw =
      ([Call.setup_ceg_handles,
        Call.CreateProcessW (run_process_convert env cmd).1 (run_process_convert env cmd).2] ++
        handshake ++ [Call.cleanup_ceg_handles, Call.CloseHandle_hThread], .ok .hProcess) := by
  unfold run_process
  simp only [hskip, hspawn, hs]
  rfl

/-- When process creation fails, `run_process` returns right after the failed call: the channel
is set up and `cleanup_ceg_handles` is not called. -/
theorem run_process_spawn_failure (env : Env) (raw cmd : List Char)
    (hskip : run_process_skip_argv0 raw = some cmd)
    (hspawn : env.CreateProcessW (run_process_convert env cmd).1
      (run_process_convert env cmd).2 = false) :
    run_process env raw =
      ([Call.setup_ceg_handles,
        Call.CreateProcessW (run_process_convert env cmd).1 (run_process_convert env cmd).2],
       .ok .INVALID_HANDLE_VALUE) := by
  unfold run_process
  simp only [hskip, hspawn]
  rfl

/-- C4, evaluated: process creation fails for `steam.exe game.exe`; `run_process` sets the
channel up, attempts the creation and returns `INVALID_HANDLE_VALUE` without calling
`cleanup_ceg_handles`. -/
theorem run_process_spawn_failure_leaks :
    run_process env_spawn_fails "steam.exe game.exe".toList =
      ([Call.setup_ceg_handles, Call.CreateProcessW "game.exe".toList 0],
       .ok .INVALID_HANDLE_VALUE) ∧
    Call.setup_ceg_handles ∈ (run_process env_spawn_fails "steam.exe game.exe".toList).1 ∧
    Call.cleanup_ceg_handles ∉ (run_process env_spawn_fails "steam.exe game.exe".toList).1 :=
  ⟨by rfl, by decide, by decide⟩

/-- When the resolution answers NULL, the translation block goes on: every later string call
sees the NULL path, and the command line becomes two quotes followed by the remainder. -/
theorem convert_unresolved (env : Env) (cmd : List Char) (hpre : ['/'] <+: cmd)
    (h1 : env.WideCharToMultiByte_size (cmd.takeWhile (· ≠ ' ')) ≠ 0)
    (h2 : (env.WideCharToMultiByte (cmd.takeWhile (· ≠ ' '))
      (env.WideCharToMultiByte_size (cmd.takeWhile (· ≠ ' ')))).1 ≠ 0)
    (h3 : env.wine_get_dos_file_name (env.WideCharToMultiByte (cmd.takeWhile (· ≠ ' '))
      (env.WideCharToMultiByte_size (cmd.takeWhile (· ≠ ' ')))).2 = none) :
    (run_process_convert env cmd).1 = '"' :: '"' :: cmd.dropWhile (· ≠ ' ') := by
  rw [starts_with_one] at hpre
  have hnq : ¬ (cmd[0]? = some '"') := by
    rw [hpre]; decide
  have htok : cmd.take (match wcschr cmd ' ' with
      | some e => e
      | none => cmd.length) = cmd.takeWhile (· ≠ ' ') ∧
      cmd.drop (match wcschr cmd ' ' with
      | some e => e
      | none => cmd.length) = cmd.dropWhile (· ≠ ' ') := by
    cases hw : wcschr cmd ' ' with
    | none =>
      have := wcschr_none_take_drop ' ' space_ne_nul cmd hw
      simp only [List.take_length, List.drop_length]
      exact ⟨this.1, this.2⟩
    | some i => exact wcschr_take_drop ' ' space_ne_nul cmd i hw
  unfold run_process_convert
  rw [if_pos (Or.inl hpre)]
  simp only [hnq, if_false, htok.1, htok.2, h1, h2, h3, lstrcatW]
  simp

/-- C8, evaluated: for `steam.exe /game/run --x` with the conversions succeeding and the path
resolution answering NULL, the text after `argv[0]` is `/game/run --x`, and the process is
created with the command line `"" --x`, not with the untranslated text. -/
theorem run_process_unresolved_path :
    run_process_skip_argv0 "steam.exe /game/run --x".toList = some "/game/run --x".toList ∧
    process_creations (run_process env_no_dos_name "steam.exe /game/run --x".toList).1 =
      [("\"\" --x".toList, 0)] :=
  ⟨by decide, by decide⟩

end Steam
